import Mathlib

/-!
Verification of the parameter-mapping and persistence core of
`bevy_midi_params` (Rust), via a shallow embedding into Lean 4.

Modelling conventions:
- Rust `f32` values are modelled as exact rationals (`ℚ`); the affine
  scaling, threshold comparison and epsilon test of the source are
  arithmetic formulas that are carried over verbatim.
- Rust `HashMap<K, V>` is modelled as the function `K → Option V`;
  `insert` is pointwise override, matching HashMap get/insert semantics.
- `u8` MIDI bytes are `Nat` (with explicit bounds hypotheses where the
  source relies on them).
- Fallible operations are `Except`.
-/

namespace BevyMidiParams

/-- Rust `f32` modelled as an exact rational number. -/
abbrev Val := ℚ

/-- `f32::EPSILON` is 2⁻²³. -/
def f32Epsilon : Val := 1 / 8388608

/-- `ControlType` from `mapping.rs`: continuous range control or toggle button. -/
inductive ControlType where
  | range (min max : Val)
  | button
deriving DecidableEq, Repr

/-- `MidiMapping` from `mapping.rs`: `cc` is the MIDI CC number
(`None` means persist-only), plus target field name, control type and
range bounds. -/
structure MidiMapping where
  cc : Option Nat
  field_name : String
  control_type : ControlType
  min_value : Val
  max_value : Val
deriving DecidableEq, Repr

/-- `MidiMapping::range` constructor from `mapping.rs`. -/
def MidiMapping.range (cc : Option Nat) (field_name : String) (min max : Val) :
    MidiMapping :=
  ⟨cc, field_name, .range min max, min, max⟩

/-- `MidiMapping::button` constructor from `mapping.rs` (min 0.0, max 1.0). -/
def MidiMapping.button (cc : Option Nat) (field_name : String) : MidiMapping :=
  ⟨cc, field_name, .button, 0, 1⟩

/-- `MidiMapping::has_midi_control` from `mapping.rs`. -/
def MidiMapping.has_midi_control (m : MidiMapping) : Bool :=
  m.cc.isSome

/-- `MidiMapping::scale_value` from `mapping.rs`:
range controls scale affinely, buttons threshold at 0.5. -/
def MidiMapping.scale_value (m : MidiMapping) (normalized : Val) : Val :=
  match m.control_type with
  | .range min max => min + normalized * (max - min)
  | .button => if normalized > 1/2 then 1 else 0

/-- A field of a derived parameter struct is either a numeric (`f32`) field
or a boolean field. -/
inductive FieldValue where
  | num (x : Val)
  | boolean (b : Bool)
deriving DecidableEq, Repr

/-- A parameter struct instance: an assignment of values to field names. -/
abbrev Params := String → FieldValue

/-- Functional update of one field of a parameter struct. -/
def setField (s : Params) (f : String) (v : FieldValue) : Params :=
  fun g => if g = f then v else s g

/-- The first mapping of a table whose CC number matches, mirroring the
first-matching-arm semantics of the `match cc` block the derive macro
generates in `update_from_midi` (derive `lib.rs`). -/
def firstMatch (tbl : List MidiMapping) (cc : Nat) : Option MidiMapping :=
  tbl.find? (fun m => decide (m.cc = some cc))

/-- The body of a generated range arm of `update_from_midi` (derive
`lib.rs`), applied to the current value of its field: assign
`new_value = min + value * (max - min)` when it differs from the current
value by more than `f32::EPSILON`.  The generated arm is statically typed
in Rust (it always targets a numeric field), so the boolean branch is
unreachable for derive-generated structs and is modelled as a no-op. -/
def rangeWrite (f : String) (newValue : Val) (s : Params) :
    FieldValue → Params × Bool
  | .num cur =>
    if |cur - newValue| > f32Epsilon then (setField s f (.num newValue), true)
    else (s, false)
  | .boolean _ => (s, false)

/-- The body of a generated button arm of `update_from_midi` (derive
`lib.rs`), applied to the current value of its field: flip the boolean
when `value > 0.5`.  The generated arm is statically typed in Rust (it
always targets a boolean field), so the numeric branch is unreachable for
derive-generated structs and is modelled as a no-op. -/
def buttonWrite (f : String) (value : Val) (s : Params) :
    FieldValue → Params × Bool
  | .boolean b =>
    if value > 1/2 then (setField s f (.boolean (!b)), true)
    else (s, false)
  | .num _ => (s, false)

/-- One generated match arm of `update_from_midi` (derive `lib.rs`):
dispatch on the mapping's control type and run the arm body on the current
value of the mapped field. -/
def applyArm (m : MidiMapping) (s : Params) (value : Val) : Params × Bool :=
  match m.control_type with
  | .range mn mx =>
    rangeWrite m.field_name (mn + value * (mx - mn)) s (s m.field_name)
  | .button => buttonWrite m.field_name value s (s m.field_name)

/-- The derive-generated `update_from_midi(&mut self, cc, value)` body
(derive `lib.rs`): the first arm whose CC literal matches runs; the
default arm changes nothing and reports no change. -/
def updateFromMidi (tbl : List MidiMapping) (s : Params) (cc : Nat)
    (value : Val) : Params × Bool :=
  match firstMatch tbl cc with
  | none => (s, false)
  | some m => applyArm m s value

/-- The Value Store: latest normalized value per CC number
(`MidiController.values` in `controller.rs`). -/
abbrev ValueStore := Nat → Option Val

/-- The value handed to the struct's `update_from_midi` by the
`update_from_midi::<T>` system in `midi_plugin.rs`: the scaled value for
range controls, the raw normalized value for buttons. -/
def valueToPass (m : MidiMapping) (normalized : Val) : Val :=
  match m.control_type with
  | .range _ _ => m.scale_value normalized
  | .button => normalized

/-- The sample the mapping loop of `update_from_midi::<T>`
(`midi_plugin.rs`) reads for one mapping: the pair of the mapping's CC and
the Value Store entry for it, when both exist (the two nested `if let
Some` guards of the loop body). -/
def sampleOf (store : ValueStore) (m : MidiMapping) : Option (Nat × Val) :=
  match m.cc with
  | none => none
  | some c => (store c).map (fun v => (c, v))

/-- The guarded body of the mapping loop of `update_from_midi::<T>`
(`midi_plugin.rs`): when a sample exists, update the struct through the
derive-generated `update_from_midi` and accumulate the changed flag;
otherwise the iteration is a no-op. -/
def syncUpdate (tbl : List MidiMapping) (m : MidiMapping)
    (acc : Params × Bool) : Option (Nat × Val) → Params × Bool
  | none => acc
  | some cv =>
    let r := updateFromMidi tbl acc.1 cv.1 (valueToPass m cv.2)
    (r.1, acc.2 || r.2)

/-- One iteration of the mapping loop of `update_from_midi::<T>`
(`midi_plugin.rs`): mappings without a CC are skipped, CCs absent from the
Value Store are skipped, otherwise the struct is updated and the changed
flag accumulated. -/
def syncStep (tbl : List MidiMapping) (store : ValueStore)
    (acc : Params × Bool) (m : MidiMapping) : Params × Bool :=
  syncUpdate tbl m acc (sampleOf store m)

/-- The full per-cycle sync pass of `update_from_midi::<T>`
(`midi_plugin.rs`): fold the mapping loop over the type's mapping table,
starting from `changed = false`. -/
def syncPass (tbl : List MidiMapping) (s : Params) (store : ValueStore) :
    Params × Bool :=
  tbl.foldl (syncStep tbl store) (s, false)

/-- `MidiError` from `error.rs`. -/
inductive MidiError where
  | noInputPorts
  | connectionFailed (msg : String)
  | persistenceError (msg : String)
  | invalidMapping (msg : String)
deriving DecidableEq, Repr

/-- The state of `MidiController` from `controller.rs` that the claims
touch: current normalized values per CC, registered mappings per CC, and
the registered type names. -/
structure MidiController where
  values : ValueStore
  mappings : Nat → Option MidiMapping
  registered_types : List String

/-- `MidiController::new` (with empty maps, no registered types). -/
def MidiController.new : MidiController :=
  ⟨fun _ => none, fun _ => none, []⟩

/-- `MidiController::get_value`: stored value, defaulting to 0.0. -/
def MidiController.get_value (ctrl : MidiController) (cc : Nat) : Val :=
  (ctrl.values cc).getD 0

/-- `MidiController::get_scaled_value`: `None` when no mapping is
registered for the CC, otherwise the mapping's scaling of the stored
value. -/
def MidiController.get_scaled_value (ctrl : MidiController) (cc : Nat) :
    Option Val :=
  (ctrl.mappings cc).map (fun m => m.scale_value (ctrl.get_value cc))

/-- `MidiController::register_mapping`: inserts 0.0 into `values` and the
mapping into `mappings`, keyed by the mapping's CC (the source writes the
`mapping.cc` key into its `HashMap<u8, _>` maps; persist-only mappings
carry no CC and are modelled as registering nothing).  No validation is
performed and no error can be reported. -/
def MidiController.register_mapping (ctrl : MidiController)
    (m : MidiMapping) : MidiController :=
  match m.cc with
  | some cc =>
    { ctrl with
      values := fun k => if k = cc then some 0 else ctrl.values k,
      mappings := fun k => if k = cc then some m else ctrl.mappings k }
  | none => ctrl

/-- `MidiController::register_type`: append the type name unless already
present. -/
def MidiController.register_type (ctrl : MidiController) (t : String) :
    MidiController :=
  if t ∈ ctrl.registered_types then ctrl
  else { ctrl with registered_types := ctrl.registered_types ++ [t] }

/-- `MidiController::number_of_registered_types`. -/
def MidiController.number_of_registered_types (ctrl : MidiController) : Nat :=
  ctrl.registered_types.length

/-- The MIDI input callback from `MidiController::connect_midi`
(`controller.rs`): on a Control Change message (status byte `0xB0`, at
least 3 bytes) the second data byte is divided by 127 and stored for the
CC named by the first data byte; other messages are ignored.  `raw` is the
shared `_changed_values` buffer the callback writes into. -/
def midiCallback (message : List Nat) (raw : ValueStore) : ValueStore :=
  match message with
  | b0 :: b1 :: b2 :: _ =>
    if b0 = 176 then
      fun k => if k = b1 then some ((b2 : Val) / 127) else raw k
    else raw
  | _ => raw

/-- The result of draining a buffer into a value map: every entry of the
buffer overwrites the map entry for its CC (latest value wins), all other
entries are kept. -/
def mergeStore (buffer values : ValueStore) : ValueStore :=
  fun k =>
    match buffer k with
    | some v => some v
    | none => values k

/-- `MidiController::update_values` (`controller.rs`): drain the shared
buffer into `values`, overwriting per CC (latest value wins). -/
def MidiController.update_values (ctrl : MidiController)
    (raw : ValueStore) : MidiController :=
  { ctrl with values := mergeStore raw ctrl.values }

/-- `PersistData` from `persistence.rs`: a flat field-name → scalar map.
The scalar values the derive writes are numbers and booleans, so the
`serde_json::Value` payload is modelled by `FieldValue`. -/
abbrev PersistData := String → Option FieldValue

/-- `PersistData::insert`. -/
def PersistData.insert (d : PersistData) (key : String) (v : FieldValue) :
    PersistData :=
  fun k => if k = key then some v else d k

/-- Whether two field values have the same scalar kind (number/boolean);
models whether `serde_json::from_value::<T>` succeeds for the field's
static type. -/
def FieldValue.sameKind : FieldValue → FieldValue → Bool
  | .num _, .num _ => true
  | .boolean _, .boolean _ => true
  | _, _ => false

/-- `PersistData::get::<T>`: the stored value if present and
deserializable at the requested kind, else `None` (per-field tolerance). -/
def PersistData.getTyped (d : PersistData) (key : String)
    (kind : FieldValue) : Option FieldValue :=
  (d key).bind (fun w => if w.sameKind kind then some w else none)

/-- `MidiPersistFile` from `persistence.rs`: per-type documents plus
metadata. -/
structure MidiPersistFile where
  type_data : String → Option PersistData
  last_saved : String
  version : String

/-- `MidiPersistFile::new` (timestamp and version passed explicitly in
place of `chrono::Utc::now()` and the crate version). -/
def MidiPersistFile.new (now ver : String) : MidiPersistFile :=
  ⟨fun _ => none, now, ver⟩

/-- `MidiPersistFile::get_type_data`. -/
def MidiPersistFile.get_type_data (f : MidiPersistFile) (t : String) :
    Option PersistData :=
  f.type_data t

/-- `MidiPersistFile::set_type_data`: insert the document for one type
name. -/
def MidiPersistFile.set_type_data (f : MidiPersistFile) (t : String)
    (d : PersistData) : MidiPersistFile :=
  { f with type_data := fun k => if k = t then some d else f.type_data k }

/-- The on-disk state at the persistence path: absent, a parseable
serialization of a persistence file, or malformed content.  Serialization
is modelled as storing the structure itself (the RON/JSON format choice is
incidental per the crate's design). -/
inductive StoredFile where
  | good (f : MidiPersistFile)
  | malformed

/-- `MidiPersistFile::load_from_file` (`persistence.rs`): a missing path
yields `Ok(Self::new())`; malformed content is a `PersistenceError`;
otherwise the parsed file. -/
def load_from_file (fs : Option StoredFile) (now ver : String) :
    Except MidiError MidiPersistFile :=
  match fs with
  | none => .ok (MidiPersistFile.new now ver)
  | some (.good f) => .ok f
  | some .malformed => .error (.persistenceError "parse error")

/-- `MidiPersistFile::save_to_file` (`persistence.rs`), success path:
update `last_saved`, then write the whole serialized file; returns the
updated in-memory file and the new on-disk state. -/
def save_to_file (f : MidiPersistFile) (now : String) :
    MidiPersistFile × Option StoredFile :=
  let f' := { f with last_saved := now }
  (f', some (.good f'))

/-- `save_params_to_file` (`midi_plugin.rs`): load the whole persistence
file, replace only this type's document, save the whole file back
(read-modify-write). -/
def save_params_to_file (fs : Option StoredFile) (typeName : String)
    (data : PersistData) (now ver : String) :
    Except MidiError (Option StoredFile) :=
  match load_from_file fs now ver with
  | .error e => .error e
  | .ok pf => .ok (save_to_file (pf.set_type_data typeName data) now).2

/-- A parameter struct presented as its ordered field list (name, value),
as the derive macro sees it. -/
abbrev ParamsFields := List (String × FieldValue)

/-- The derive-generated `to_persist_data` (derive `lib.rs`): insert every
field (MIDI-mapped or not) into a fresh `PersistData`. -/
def to_persist_data (s : ParamsFields) : PersistData :=
  s.foldl (fun d p => d.insert p.1 p.2) (fun _ => none)

/-- The load of one field generated by `from_persist_data` (derive
`lib.rs`): if the document holds a value deserializable at the field's
type (the type of its current value), assign it; otherwise keep the
current value. -/
def loadField (d : PersistData) (p : String × FieldValue) :
    String × FieldValue :=
  match d.getTyped p.1 p.2 with
  | some w => (p.1, w)
  | none => p

/-- The derive-generated `from_persist_data` (derive `lib.rs`): load every
field of the struct from the document. -/
def from_persist_data (s : ParamsFields) (d : PersistData) : ParamsFields :=
  s.map (loadField d)

/-- The range validation of the derive attribute parser
(`MidiAttr::parse`, derive `lib.rs` lines 316-321): `start >= end` is a
compile-time error, otherwise the parsed `Range` control type. -/
def rangeAttrCheck (start stop : Val) : Except String ControlType :=
  if start ≥ stop then .error "Range start must be less than end"
  else .ok (.range start stop)

/-- Concrete fixture for the C3 counterexample: a single Button mapping. -/
def c3Table : List MidiMapping := [MidiMapping.button (some 24) "flag"]

/-- Concrete fixture for the C3 counterexample: the Value Store holds 0.8
for CC 24. -/
def c3Store : ValueStore := fun k => if k = 24 then some (4/5) else none

/-- Concrete fixture for the C3 counterexample: the struct starts with
`flag = false`. -/
def c3Params : Params := fun _ => .boolean false

/-- Concrete fixture for the C8 counterexample: a mapping whose range is
inverted (min 5 > max 1). -/
def badRangeMapping : MidiMapping := MidiMapping.range (some 3) "bad" 5 1

end BevyMidiParams

namespace BevyMidiParams

/-- Claim C1: for a `Range{min,max}` mapping with `min < max` and a normalized
value `n ∈ [0,1]`, `scale_value` equals `min + n * (max - min)`, the result
lies in `[min, max]`, and the endpoints map to `min` and `max` exactly. -/
theorem scale_value_range_spec (m : MidiMapping) (mn mx n : Val)
    (hct : m.control_type = .range mn mx) (hlt : mn < mx)
    (h0 : 0 ≤ n) (h1 : n ≤ 1) :
    m.scale_value n = mn + n * (mx - mn) ∧
    mn ≤ m.scale_value n ∧ m.scale_value n ≤ mx ∧
    m.scale_value 0 = mn ∧ m.scale_value 1 = mx := by
  unfold MidiMapping.scale_value
  rw [hct]
  refine ⟨rfl, ?_, ?_, by ring, by ring⟩
  · nlinarith [mul_nonneg h0 (by linarith : (0 : Val) ≤ mx - mn)]
  · nlinarith [mul_nonneg (by linarith : (0 : Val) ≤ 1 - n)
      (by linarith : (0 : Val) ≤ mx - mn)]

/-- Witness for C1 at the spec's concrete scenario: `Range{0,10}` on CC 16
with normalized value 1/2. -/
theorem scale_value_range_spec_witness :
    (MidiMapping.range (some 16) "speed" 0 10).scale_value (1/2) =
      0 + (1/2) * (10 - 0) ∧
    (0 : Val) ≤ (MidiMapping.range (some 16) "speed" 0 10).scale_value (1/2) ∧
    (MidiMapping.range (some 16) "speed" 0 10).scale_value (1/2) ≤ 10 ∧
    (MidiMapping.range (some 16) "speed" 0 10).scale_value 0 = 0 ∧
    (MidiMapping.range (some 16) "speed" 0 10).scale_value 1 = 10 :=
  scale_value_range_spec (MidiMapping.range (some 16) "speed" 0 10) 0 10 (1/2)
    rfl (by norm_num) (by norm_num) (by norm_num)

/-- Unfolding equation: a range arm on a numeric field. -/
lemma rangeWrite_num (f : String) (nv : Val) (s : Params) (cur : Val) :
    rangeWrite f nv s (.num cur) =
      if |cur - nv| > f32Epsilon then (setField s f (.num nv), true)
      else (s, false) := rfl

/-- Unfolding equation: a range arm on a boolean field is a no-op. -/
lemma rangeWrite_boolean (f : String) (nv : Val) (s : Params) (b : Bool) :
    rangeWrite f nv s (.boolean b) = (s, false) := rfl

/-- Unfolding equation: a button arm on a boolean field. -/
lemma buttonWrite_boolean (f : String) (value : Val) (s : Params) (b : Bool) :
    buttonWrite f value s (.boolean b) =
      if value > 1/2 then (setField s f (.boolean (!b)), true)
      else (s, false) := rfl

/-- Unfolding equation: a button arm on a numeric field is a no-op. -/
lemma buttonWrite_num (f : String) (value : Val) (s : Params) (x : Val) :
    buttonWrite f value s (.num x) = (s, false) := rfl

/-- Unfolding equation: `applyArm` on a range mapping. -/
lemma applyArm_range (m : MidiMapping) (s : Params) (value mn mx : Val)
    (hct : m.control_type = .range mn mx) :
    applyArm m s value =
      rangeWrite m.field_name (mn + value * (mx - mn)) s (s m.field_name) := by
  unfold applyArm
  rw [hct]

/-- Unfolding equation: `applyArm` on a button mapping. -/
lemma applyArm_button (m : MidiMapping) (s : Params) (value : Val)
    (hct : m.control_type = .button) :
    applyArm m s value = buttonWrite m.field_name value s (s m.field_name) := by
  unfold applyArm
  rw [hct]

/-- Unfolding equation: the sync loop passes the scaled value for range
mappings. -/
lemma valueToPass_range (m : MidiMapping) (mn mx v : Val)
    (hct : m.control_type = .range mn mx) :
    valueToPass m v = m.scale_value v := by
  unfold valueToPass
  rw [hct]

/-- Unfolding equation: the sync loop passes the raw normalized value for
button mappings. -/
lemma valueToPass_button (m : MidiMapping) (v : Val)
    (hct : m.control_type = .button) : valueToPass m v = v := by
  unfold valueToPass
  rw [hct]

/-- Unfolding equation: no sample exists for a persist-only mapping. -/
lemma sampleOf_cc_none (store : ValueStore) (m : MidiMapping)
    (hcc : m.cc = none) : sampleOf store m = none := by
  unfold sampleOf
  rw [hcc]

/-- Unfolding equation: the sample of a live mapping is the store entry
for its CC. -/
lemma sampleOf_cc_some (store : ValueStore) (m : MidiMapping) (c : Nat)
    (hcc : m.cc = some c) :
    sampleOf store m = (store c).map (fun v => (c, v)) := by
  unfold sampleOf
  rw [hcc]

/-- Unfolding equation: `updateFromMidi` when a mapping matches the CC. -/
lemma updateFromMidi_eq_applyArm (tbl : List MidiMapping) (s : Params)
    (c : Nat) (value : Val) (m : MidiMapping)
    (hfm : firstMatch tbl c = some m) :
    updateFromMidi tbl s c value = applyArm m s value := by
  unfold updateFromMidi
  rw [hfm]

/-- Unfolding equation: `updateFromMidi` on an unmatched CC (the default
arm). -/
lemma updateFromMidi_default (tbl : List MidiMapping) (s : Params) (c : Nat)
    (value : Val) (hfm : firstMatch tbl c = none) :
    updateFromMidi tbl s c value = (s, false) := by
  unfold updateFromMidi
  rw [hfm]

/-- Unfolding equation: a loop iteration with no sample is a no-op. -/
lemma syncStep_skip (tbl : List MidiMapping) (store : ValueStore)
    (acc : Params × Bool) (m : MidiMapping)
    (hs : sampleOf store m = none) : syncStep tbl store acc m = acc := by
  unfold syncStep
  rw [hs]
  rfl

/-- Unfolding equation: a loop iteration with a sample runs the generated
update and accumulates the changed flag. -/
lemma syncStep_sample (tbl : List MidiMapping) (store : ValueStore)
    (s : Params) (b : Bool) (m : MidiMapping) (c : Nat) (v : Val)
    (hcc : m.cc = some c) (hsv : store c = some v) :
    syncStep tbl store (s, b) m =
      ((updateFromMidi tbl s c (valueToPass m v)).1,
        b || (updateFromMidi tbl s c (valueToPass m v)).2) := by
  unfold syncStep
  rw [sampleOf_cc_some store m c hcc, hsv, Option.map_some']
  rfl

/-- Claim C2: for a Button (Toggle) mapping with a live control id whose
normalized value `v` is sampled from the Value Store, one update pass flips
the mapped boolean field and reports a change exactly when `v > 0.5`; a
value `≤ 0.5` leaves the field (and every other field) unchanged. -/
theorem button_sync_spec (m : MidiMapping) (c : Nat) (v : Val) (s : Params)
    (store : ValueStore) (b : Bool) (g : String)
    (hct : m.control_type = .button) (hcc : m.cc = some c)
    (hv : store c = some v) (hb : s m.field_name = .boolean b)
    (hg : g ≠ m.field_name) :
    (syncPass [m] s store).2 = decide (v > 1/2) ∧
    (syncPass [m] s store).1 m.field_name =
      .boolean (if v > 1/2 then !b else b) ∧
    (syncPass [m] s store).1 g = s g := by
  have hfm : firstMatch [m] c = some m := by
    simp [firstMatch, List.find?, hcc]
  have hpass : syncPass [m] s store =
      ((applyArm m s v).1, false || (applyArm m s v).2) := by
    show syncStep [m] store (s, false) m = _
    rw [syncStep_sample [m] store s false m c v hcc hv,
      updateFromMidi_eq_applyArm [m] s c (valueToPass m v) m hfm,
      valueToPass_button m v hct]
  rw [hpass, applyArm_button m s v hct, hb, buttonWrite_boolean]
  by_cases hlt : v > 1/2
  · have hlt' : (2 : Val)⁻¹ < v := by rw [inv_eq_one_div]; exact hlt
    rw [if_pos hlt]
    exact ⟨by simp [hlt'], by simp [setField, hlt'], by simp [setField, hg]⟩
  · have hlt' : ¬ ((2 : Val)⁻¹ < v) := by rw [inv_eq_one_div]; exact hlt
    rw [if_neg hlt]
    exact ⟨by simp [hlt'], by simp [hb, hlt'], by simp⟩

/-- Witness for C2: the spec's concrete toggle scenario, Button on CC 24,
field starting `false`, stored value 0.8. -/
theorem button_sync_spec_witness :
    (syncPass [MidiMapping.button (some 24) "flag"] (fun _ => .boolean false)
      (fun k => if k = 24 then some (4/5) else none)).2 =
      decide ((4 : Val)/5 > 1/2) ∧
    (syncPass [MidiMapping.button (some 24) "flag"] (fun _ => .boolean false)
      (fun k => if k = 24 then some (4/5) else none)).1 "flag" =
      .boolean (if (4 : Val)/5 > 1/2 then !false else false) ∧
    (syncPass [MidiMapping.button (some 24) "flag"] (fun _ => .boolean false)
      (fun k => if k = 24 then some (4/5) else none)).1 "other" =
      (fun _ => FieldValue.boolean false) "other" :=
  button_sync_spec (MidiMapping.button (some 24) "flag") 24 (4/5)
    (fun _ => .boolean false) (fun k => if k = 24 then some (4/5) else none)
    false "other" rfl rfl (by norm_num) rfl (by decide)

/-- When live CC numbers are unique in a table, `firstMatch` at a mapping's
CC resolves to that mapping. -/
lemma firstMatch_eq_of_unique (tbl : List MidiMapping) (m : MidiMapping)
    (c : Nat)
    (huniq : ∀ m₁ ∈ tbl, ∀ m₂ ∈ tbl, ∀ c', m₁.cc = some c' →
      m₂.cc = some c' → m₁ = m₂)
    (hm : m ∈ tbl) (hcc : m.cc = some c) :
    firstMatch tbl c = some m := by
  unfold firstMatch
  cases hfind : tbl.find? (fun x => decide (x.cc = some c)) with
  | none =>
    exfalso
    have := List.find?_eq_none.mp hfind m hm
    simp [hcc] at this
  | some m' =>
    have hp' := List.find?_some hfind
    have hp : m'.cc = some c := by simpa using hp'
    have hmem : m' ∈ tbl := List.mem_of_find?_eq_some hfind
    rw [huniq m' hmem m hm c hp hcc]

/-- A range arm never modifies a field other than its own. -/
lemma rangeWrite_fst_ne (f : String) (nv : Val) (s : Params)
    (fv : FieldValue) (g : String) (hg : g ≠ f) :
    (rangeWrite f nv s fv).1 g = s g := by
  cases fv with
  | num cur =>
    rw [rangeWrite_num]
    by_cases h : |cur - nv| > f32Epsilon
    · rw [if_pos h]
      simp [setField, hg]
    · rw [if_neg h]
  | boolean b => rfl

/-- A button arm never modifies a field other than its own. -/
lemma buttonWrite_fst_ne (f : String) (value : Val) (s : Params)
    (fv : FieldValue) (g : String) (hg : g ≠ f) :
    (buttonWrite f value s fv).1 g = s g := by
  cases fv with
  | num x => rfl
  | boolean b =>
    rw [buttonWrite_boolean]
    by_cases h : value > 1/2
    · rw [if_pos h]
      simp [setField, hg]
    · rw [if_neg h]

/-- A generated arm never modifies a field other than its own. -/
lemma applyArm_fst_ne (m : MidiMapping) (s : Params) (value : Val)
    (g : String) (hg : g ≠ m.field_name) :
    (applyArm m s value).1 g = s g := by
  cases hct : m.control_type with
  | range mn mx =>
    rw [applyArm_range m s value mn mx hct]
    exact rangeWrite_fst_ne _ _ _ _ _ hg
  | button =>
    rw [applyArm_button m s value hct]
    exact buttonWrite_fst_ne _ _ _ _ _ hg

/-- After a range arm runs, whatever numeric value its field holds is
within `f32::EPSILON` of the arm's computed value. -/
lemma applyArm_range_settles (m : MidiMapping) (s : Params) (value : Val)
    (mn mx : Val) (hct : m.control_type = .range mn mx) (cur : Val)
    (h : (applyArm m s value).1 m.field_name = .num cur) :
    |cur - (mn + value * (mx - mn))| ≤ f32Epsilon := by
  rw [applyArm_range m s value mn mx hct] at h
  cases hsf : s m.field_name with
  | num cur0 =>
    rw [hsf, rangeWrite_num] at h
    by_cases hfar : |cur0 - (mn + value * (mx - mn))| > f32Epsilon
    · rw [if_pos hfar] at h
      simp [setField] at h
      rw [← h]
      norm_num [f32Epsilon]
    · rw [if_neg hfar] at h
      simp [hsf] at h
      rw [← h]
      exact le_of_not_lt hfar
  | boolean b =>
    rw [hsf, rangeWrite_boolean] at h
    simp [hsf] at h

/-- A range arm whose field already holds a numeric value within
`f32::EPSILON` of the computed value is a no-op reporting no change. -/
lemma applyArm_range_noop (m : MidiMapping) (s : Params) (value : Val)
    (mn mx : Val) (hct : m.control_type = .range mn mx)
    (hsettled : ∀ cur, s m.field_name = .num cur →
      |cur - (mn + value * (mx - mn))| ≤ f32Epsilon) :
    applyArm m s value = (s, false) := by
  rw [applyArm_range m s value mn mx hct]
  cases hsf : s m.field_name with
  | num cur =>
    rw [rangeWrite_num, if_neg (not_lt.mpr (hsettled cur hsf))]
  | boolean b => rw [rangeWrite_boolean]

/-- A button arm sampled at or below the 0.5 threshold is a no-op
reporting no change. -/
lemma applyArm_button_noop (m : MidiMapping) (s : Params) (value : Val)
    (hct : m.control_type = .button) (hv : ¬ ((1 : Val)/2 < value)) :
    applyArm m s value = (s, false) := by
  rw [applyArm_button m s value hct]
  cases hsf : s m.field_name with
  | num x => rw [buttonWrite_num]
  | boolean b => rw [buttonWrite_boolean, if_neg hv]

/-- `updateFromMidi` never modifies a field no mapping for that CC owns. -/
lemma updateFromMidi_fst_ne (tbl : List MidiMapping) (s : Params) (c : Nat)
    (value : Val) (g : String)
    (hg : ∀ m ∈ tbl, m.cc = some c → m.field_name ≠ g) :
    (updateFromMidi tbl s c value).1 g = s g := by
  unfold updateFromMidi
  cases hfind : firstMatch tbl c with
  | none => rfl
  | some m =>
    have hfind' : tbl.find? (fun x => decide (x.cc = some c)) = some m :=
      hfind
    have hmem : m ∈ tbl := List.mem_of_find?_eq_some hfind'
    have hp' := List.find?_some hfind'
    have hcc : m.cc = some c := by simpa using hp'
    exact applyArm_fst_ne m s value g (Ne.symm (hg m hmem hcc))

/-- The sync-pass fold never modifies a field owned by no mapping of the
processed list (given unique live CCs in the table). -/
lemma foldl_syncStep_fst_ne (tbl : List MidiMapping) (store : ValueStore)
    (huniq : ∀ m₁ ∈ tbl, ∀ m₂ ∈ tbl, ∀ c', m₁.cc = some c' →
      m₂.cc = some c' → m₁ = m₂) (g : String) :
    ∀ (l : List MidiMapping), (∀ x ∈ l, x ∈ tbl) →
      (∀ m' ∈ l, m'.field_name ≠ g) →
      ∀ (s : Params) (b : Bool),
        (List.foldl (syncStep tbl store) (s, b) l).1 g = s g := by
  intro l
  induction l with
  | nil => intro _ _ s b; rfl
  | cons m' rest ih =>
    intro hsub hne s b
    have hstep : (syncStep tbl store (s, b) m').1 g = s g := by
      cases hcc : m'.cc with
      | none => rw [syncStep_skip tbl store (s, b) m' (sampleOf_cc_none store m' hcc)]
      | some c =>
        cases hsv : store c with
        | none =>
          rw [syncStep_skip tbl store (s, b) m'
            (by rw [sampleOf_cc_some store m' c hcc, hsv, Option.map_none'])]
        | some v =>
          rw [syncStep_sample tbl store s b m' c v hcc hsv]
          apply updateFromMidi_fst_ne
          intro mm hmm hmmcc
          have hmmeq : mm = m' :=
            huniq mm hmm m' (hsub m' (List.mem_cons_self m' rest)) c hmmcc hcc
          rw [hmmeq]
          exact hne m' (List.mem_cons_self m' rest)
    have hsub' : ∀ x ∈ rest, x ∈ tbl := fun x hx =>
      hsub x (List.mem_cons_of_mem m' hx)
    have hne' : ∀ x ∈ rest, x.field_name ≠ g := fun x hx =>
      hne x (List.mem_cons_of_mem m' hx)
    calc (List.foldl (syncStep tbl store) (s, b) (m' :: rest)).1 g
        = (List.foldl (syncStep tbl store)
            (syncStep tbl store (s, b) m') rest).1 g := rfl
      _ = (syncStep tbl store (s, b) m').1 g :=
          ih hsub' hne' (syncStep tbl store (s, b) m').1
            (syncStep tbl store (s, b) m').2
      _ = s g := hstep

/-- A sync-pass fold all of whose live updates are no-ops on `s` leaves
the accumulator untouched. -/
lemma foldl_syncStep_noop (tbl : List MidiMapping) (store : ValueStore)
    (s : Params) :
    ∀ (l : List MidiMapping),
      (∀ m ∈ l, ∀ c, m.cc = some c → ∀ v, store c = some v →
        updateFromMidi tbl s c (valueToPass m v) = (s, false)) →
      ∀ b, List.foldl (syncStep tbl store) (s, b) l = (s, b) := by
  intro l
  induction l with
  | nil => intro _ b; rfl
  | cons m rest ih =>
    intro h b
    have hstep : syncStep tbl store (s, b) m = (s, b) := by
      cases hcc : m.cc with
      | none => rw [syncStep_skip tbl store (s, b) m (sampleOf_cc_none store m hcc)]
      | some c =>
        cases hsv : store c with
        | none =>
          rw [syncStep_skip tbl store (s, b) m
            (by rw [sampleOf_cc_some store m c hcc, hsv, Option.map_none'])]
        | some v =>
          rw [syncStep_sample tbl store s b m c v hcc hsv,
            h m (List.mem_cons_self m rest) c hcc v hsv]
          simp
    calc List.foldl (syncStep tbl store) (s, b) (m :: rest)
        = List.foldl (syncStep tbl store) (syncStep tbl store (s, b) m)
            rest := rfl
      _ = List.foldl (syncStep tbl store) (s, b) rest := by rw [hstep]
      _ = (s, b) :=
          ih (fun m' hm' => h m' (List.mem_cons_of_mem m hm')) b

/-- After one sync pass, any numeric value held by the field of a live,
sampled range mapping is within `f32::EPSILON` of that mapping's computed
update value, provided live CCs are unique and field names pairwise
distinct. -/
lemma foldl_syncStep_establish (tbl : List MidiMapping) (store : ValueStore)
    (huniq : ∀ m₁ ∈ tbl, ∀ m₂ ∈ tbl, ∀ c', m₁.cc = some c' →
      m₂.cc = some c' → m₁ = m₂) :
    ∀ (l : List MidiMapping), (∀ x ∈ l, x ∈ tbl) →
      l.Pairwise (fun a b => a.field_name ≠ b.field_name) →
      ∀ (s : Params) (b : Bool), ∀ m ∈ l, ∀ c v mn mx,
        m.cc = some c → store c = some v →
        m.control_type = .range mn mx →
        ∀ cur,
          (List.foldl (syncStep tbl store) (s, b) l).1 m.field_name =
            .num cur →
          |cur - (mn + valueToPass m v * (mx - mn))| ≤ f32Epsilon := by
  intro l
  induction l with
  | nil => intro _ _ s b m hm; cases hm
  | cons m₀ rest ih =>
    intro hsub hpw s b m hm c v mn mx hcc hsv hct cur hval
    have hsub' : ∀ x ∈ rest, x ∈ tbl := fun x hx =>
      hsub x (List.mem_cons_of_mem m₀ hx)
    have hpw' := (List.pairwise_cons.mp hpw).2
    have hpwhead := (List.pairwise_cons.mp hpw).1
    rcases List.mem_cons.mp hm with rfl | hmrest
    · -- the head mapping: its own step settles the field, and the rest of
      -- the pass cannot touch it
      have hmtbl : m ∈ tbl := hsub m (List.mem_cons_self m rest)
      have hfm : firstMatch tbl c = some m :=
        firstMatch_eq_of_unique tbl m c huniq hmtbl hcc
      have hstep : List.foldl (syncStep tbl store) (s, b) (m :: rest) =
          List.foldl (syncStep tbl store)
            (syncStep tbl store (s, b) m) rest := rfl
      have hpres : (List.foldl (syncStep tbl store)
            (syncStep tbl store (s, b) m) rest).1 m.field_name =
          (syncStep tbl store (s, b) m).1 m.field_name :=
        foldl_syncStep_fst_ne tbl store huniq m.field_name rest hsub'
          (fun x hx => (hpwhead x hx).symm)
          (syncStep tbl store (s, b) m).1 (syncStep tbl store (s, b) m).2
      rw [hstep, hpres] at hval
      rw [syncStep_sample tbl store s b m c v hcc hsv] at hval
      rw [updateFromMidi_eq_applyArm tbl s c (valueToPass m v) m hfm]
        at hval
      have hval' : (applyArm m s (valueToPass m v)).1 m.field_name =
          .num cur := hval
      exact applyArm_range_settles m s (valueToPass m v) mn mx hct cur hval'
    · -- a mapping of the tail: induction hypothesis from the state after
      -- the head's step
      have hres := ih hsub' hpw'
        (syncStep tbl store (s, b) m₀).1 (syncStep tbl store (s, b) m₀).2
        m hmrest c v mn mx hcc hsv hct cur
      apply hres
      exact hval

/-- Claim C3 counterexample: with a Button mapping on CC 24 holding stored
value 0.8, the second sync pass (Value Store unchanged) again reports
`changed = true` — the toggle flips on every pass while the sampled value
stays above 0.5. -/
theorem syncPass_not_idempotent :
    (syncPass c3Table (syncPass c3Table c3Params c3Store).1 c3Store).2 =
      true := by
  have hm : (MidiMapping.button (some 24) "flag").cc = some 24 := rfl
  have hct : (MidiMapping.button (some 24) "flag").control_type =
      .button := rfl
  have hsv : c3Store 24 = some (4/5) := by norm_num [c3Store]
  have hfm : firstMatch c3Table 24 =
      some (MidiMapping.button (some 24) "flag") := by
    simp [c3Table, firstMatch, List.find?, hm]
  have hfn : (MidiMapping.button (some 24) "flag").field_name = "flag" :=
    rfl
  have hp1 : syncPass c3Table c3Params c3Store =
      (setField c3Params "flag" (.boolean true), true) := by
    show syncStep c3Table c3Store (c3Params, false)
      (MidiMapping.button (some 24) "flag") = _
    rw [syncStep_sample c3Table c3Store c3Params false
        (MidiMapping.button (some 24) "flag") 24 (4/5) hm hsv,
      updateFromMidi_eq_applyArm c3Table c3Params 24 _ _ hfm,
      valueToPass_button _ _ hct, applyArm_button _ _ _ hct, hfn,
      show c3Params "flag" = .boolean false from rfl,
      buttonWrite_boolean, if_pos (by norm_num : (4 : Val)/5 > 1/2)]
    rfl
  have hb2 : setField c3Params "flag" (FieldValue.boolean true) "flag" =
      .boolean true := by
    simp [setField]
  have hp2 : syncPass c3Table
      (setField c3Params "flag" (.boolean true)) c3Store =
      (setField (setField c3Params "flag" (.boolean true)) "flag"
        (.boolean false), true) := by
    show syncStep c3Table c3Store
      (setField c3Params "flag" (.boolean true), false)
      (MidiMapping.button (some 24) "flag") = _
    rw [syncStep_sample c3Table c3Store
        (setField c3Params "flag" (.boolean true)) false
        (MidiMapping.button (some 24) "flag") 24 (4/5) hm hsv,
      updateFromMidi_eq_applyArm c3Table
        (setField c3Params "flag" (.boolean true)) 24 _ _ hfm,
      valueToPass_button _ _ hct, applyArm_button _ _ _ hct, hfn, hb2,
      buttonWrite_boolean, if_pos (by norm_num : (4 : Val)/5 > 1/2)]
    rfl
  rw [hp1]
  dsimp only
  rw [hp2]

/-- Claim C3 (amended): one sync pass followed by a second pass against an
unchanged Value Store reports `changed = false`, provided the mapping
table is well-formed in the sense of the spec's data model (each live
control id owned by exactly one mapping, field names pairwise distinct)
and no Button mapping's sampled value exceeds 0.5.  Without the Button
proviso the claim is false (see the counterexample): a held button flips
its field on every pass. -/
theorem syncPass_idempotent_of_settled (tbl : List MidiMapping)
    (s : Params) (store : ValueStore)
    (huniq : ∀ m₁ ∈ tbl, ∀ m₂ ∈ tbl, ∀ c', m₁.cc = some c' →
      m₂.cc = some c' → m₁ = m₂)
    (hfld : tbl.Pairwise (fun a b => a.field_name ≠ b.field_name))
    (hbtn : ∀ m ∈ tbl, m.control_type = .button → ∀ c, m.cc = some c →
      ∀ v, store c = some v → ¬ ((1 : Val)/2 < v)) :
    (syncPass tbl (syncPass tbl s store).1 store).2 = false := by
  have hnoop : ∀ m ∈ tbl, ∀ c, m.cc = some c → ∀ v, store c = some v →
      updateFromMidi tbl (syncPass tbl s store).1 c (valueToPass m v) =
        ((syncPass tbl s store).1, false) := by
    intro m hm c hcc v hsv
    have hfm : firstMatch tbl c = some m :=
      firstMatch_eq_of_unique tbl m c huniq hm hcc
    rw [updateFromMidi_eq_applyArm tbl (syncPass tbl s store).1 c
      (valueToPass m v) m hfm]
    cases hct : m.control_type with
    | range mn mx =>
      apply applyArm_range_noop m (syncPass tbl s store).1
        (valueToPass m v) mn mx hct
      intro cur hcur
      exact foldl_syncStep_establish tbl store huniq tbl (fun x hx => hx)
        hfld s false m hm c v mn mx hcc hsv hct cur hcur
    | button =>
      rw [valueToPass_button m v hct]
      exact applyArm_button_noop m (syncPass tbl s store).1 v hct
        (hbtn m hm hct c hcc v hsv)
  have hfold := foldl_syncStep_noop tbl store (syncPass tbl s store).1 tbl
    hnoop false
  show (List.foldl (syncStep tbl store)
    ((syncPass tbl s store).1, false) tbl).2 = false
  rw [hfold]

/-- Witness for the amended C3: a one-mapping range table, CC 16 stored at
1/2. -/
theorem syncPass_idempotent_of_settled_witness :
    (syncPass [MidiMapping.range (some 16) "speed" 0 10]
      (syncPass [MidiMapping.range (some 16) "speed" 0 10]
        (fun _ => .num 0)
        (fun k => if k = 16 then some (1/2) else none)).1
      (fun k => if k = 16 then some (1/2) else none)).2 = false := by
  apply syncPass_idempotent_of_settled
  · intro m₁ h₁ m₂ h₂ c' e₁ e₂
    simp only [List.mem_singleton] at h₁ h₂
    rw [h₁, h₂]
  · simp
  · intro m hm hct c hcc v hsv
    simp only [List.mem_singleton] at hm
    rw [hm] at hct
    cases hct


/-- Claim C10: the derive-generated `update_from_midi` hits its default
match arm when the CC is not bound to any mapped field: it returns `false`
and the struct is returned unchanged. -/
theorem update_unbound_cc_noop (tbl : List MidiMapping) (s : Params)
    (cc : Nat) (value : Val) (h : ∀ m ∈ tbl, m.cc ≠ some cc) :
    updateFromMidi tbl s cc value = (s, false) := by
  have hfm : firstMatch tbl cc = none := by
    apply List.find?_eq_none.mpr
    intro m hm
    simpa using h m hm
  simp [updateFromMidi, hfm]

/-- Witness for C10: a table binding only CC 1, probed with CC 99. -/
theorem update_unbound_cc_noop_witness :
    updateFromMidi [MidiMapping.range (some 1) "speed" 0 10]
      (fun _ => .num 0) 99 (1/2) = ((fun _ => FieldValue.num 0), false) :=
  update_unbound_cc_noop [MidiMapping.range (some 1) "speed" 0 10]
    (fun _ => .num 0) 99 (1/2) (by decide)

/-- Claim C4: saving one type's document is a read-modify-write of the
whole persistence file.  `set_type_data` touches only the named entry, and
after the save flow for type `A` on a file already holding type `B`'s
document, a reload still yields `B`'s document unchanged. -/
theorem save_preserves_other_types (f : MidiPersistFile) (A B t : String)
    (dA dB : PersistData) (now ver : String)
    (ht : t ≠ A) (hAB : A ≠ B) (hB : f.get_type_data B = some dB) :
    (f.set_type_data A dA).get_type_data t = f.get_type_data t ∧
    save_params_to_file (some (.good f)) A dA now ver =
      .ok (some (.good { f.set_type_data A dA with last_saved := now })) ∧
    load_from_file
      (some (.good { f.set_type_data A dA with last_saved := now }))
      now ver =
      .ok { f.set_type_data A dA with last_saved := now } ∧
    ({ f.set_type_data A dA with last_saved := now } :
      MidiPersistFile).get_type_data B = some dB := by
  refine ⟨?_, rfl, rfl, ?_⟩
  · unfold MidiPersistFile.set_type_data MidiPersistFile.get_type_data
    simp [ht]
  · have heq : ({ f.set_type_data A dA with last_saved := now } :
        MidiPersistFile).get_type_data B = f.get_type_data B := by
      unfold MidiPersistFile.set_type_data MidiPersistFile.get_type_data
      simp [Ne.symm hAB]
    rw [heq, hB]

/-- Witness for C4: a file holding a document for type "B", saved over
with a document for type "A". -/
theorem save_preserves_other_types_witness :
    (((MidiPersistFile.new "t0" "v").set_type_data "B"
        (fun _ => some (.num 1))).set_type_data "A"
        (fun _ => none)).get_type_data "C" =
      ((MidiPersistFile.new "t0" "v").set_type_data "B"
        (fun _ => some (.num 1))).get_type_data "C" ∧
    save_params_to_file
      (some (.good ((MidiPersistFile.new "t0" "v").set_type_data "B"
        (fun _ => some (.num 1))))) "A" (fun _ => none) "t1" "v" =
      .ok (some (.good
        { ((MidiPersistFile.new "t0" "v").set_type_data "B"
            (fun _ => some (.num 1))).set_type_data "A" (fun _ => none) with
          last_saved := "t1" })) ∧
    load_from_file
      (some (.good
        { ((MidiPersistFile.new "t0" "v").set_type_data "B"
            (fun _ => some (.num 1))).set_type_data "A" (fun _ => none) with
          last_saved := "t1" })) "t1" "v" =
      .ok { ((MidiPersistFile.new "t0" "v").set_type_data "B"
          (fun _ => some (.num 1))).set_type_data "A" (fun _ => none) with
        last_saved := "t1" } ∧
    ({ ((MidiPersistFile.new "t0" "v").set_type_data "B"
        (fun _ => some (.num 1))).set_type_data "A" (fun _ => none) with
      last_saved := "t1" } : MidiPersistFile).get_type_data "B" =
      some (fun _ => some (.num 1)) :=
  save_preserves_other_types
    ((MidiPersistFile.new "t0" "v").set_type_data "B"
      (fun _ => some (.num 1)))
    "A" "B" "C" (fun _ => none) (fun _ => some (.num 1)) "t1" "v"
    (by decide) (by decide) rfl

/-- Claim C5: loading from a path where no file exists returns success
(not an error) with a fresh persistence file containing no type
documents. -/
theorem load_missing_file_empty (now ver t : String) :
    load_from_file none now ver = .ok (MidiPersistFile.new now ver) ∧
    (MidiPersistFile.new now ver).get_type_data t = none :=
  ⟨rfl, rfl⟩

/-- Inserting fields whose names all differ from `n` does not change the
document entry at `n`. -/
lemma foldl_insert_of_not_mem (l : ParamsFields) (n : String) :
    ∀ d : PersistData, (∀ p ∈ l, p.1 ≠ n) →
      (l.foldl (fun d p => d.insert p.1 p.2) d) n = d n := by
  induction l with
  | nil => intro d _; rfl
  | cons q rest ih =>
    intro d hne
    have h1 : (d.insert q.1 q.2) n = d n := by
      unfold PersistData.insert
      rw [if_neg (Ne.symm (hne q (List.mem_cons_self q rest)))]
    calc (List.foldl (fun d p => PersistData.insert d p.1 p.2) d
          (q :: rest)) n
        = (List.foldl (fun d p => PersistData.insert d p.1 p.2)
            (d.insert q.1 q.2) rest) n := rfl
      _ = (d.insert q.1 q.2) n :=
          ih (d.insert q.1 q.2)
            (fun p hp => hne p (List.mem_cons_of_mem q hp))
      _ = d n := h1

/-- With pairwise-distinct field names, the document built by inserting
every field holds each field's value under its name. -/
lemma foldl_insert_of_mem (l : ParamsFields) (n : String) (v : FieldValue) :
    ∀ d : PersistData, (l.map Prod.fst).Nodup → (n, v) ∈ l →
      (l.foldl (fun d p => d.insert p.1 p.2) d) n = some v := by
  induction l with
  | nil => intro d _ hmem; cases hmem
  | cons q rest ih =>
    intro d hnd hmem
    rw [List.map_cons] at hnd
    have hq_not : q.1 ∉ rest.map Prod.fst := (List.nodup_cons.mp hnd).1
    have hnd' : (rest.map Prod.fst).Nodup := (List.nodup_cons.mp hnd).2
    rcases List.mem_cons.mp hmem with heq | hmem'
    · have hnot : ∀ p ∈ rest, p.1 ≠ n := by
        intro p hp hcontra
        apply hq_not
        rw [← heq]
        exact List.mem_map.mpr ⟨p, hp, hcontra⟩
      calc (List.foldl (fun d p => PersistData.insert d p.1 p.2) d
            (q :: rest)) n
          = (List.foldl (fun d p => PersistData.insert d p.1 p.2)
              (d.insert q.1 q.2) rest) n := rfl
        _ = (d.insert q.1 q.2) n :=
            foldl_insert_of_not_mem rest n (d.insert q.1 q.2) hnot
        _ = some v := by
            rw [← heq]
            unfold PersistData.insert
            rw [if_pos rfl]
    · calc (List.foldl (fun d p => PersistData.insert d p.1 p.2) d
            (q :: rest)) n
          = (List.foldl (fun d p => PersistData.insert d p.1 p.2)
              (d.insert q.1 q.2) rest) n := rfl
        _ = some v := ih (d.insert q.1 q.2) hnd' hmem'

/-- Loading a field whose document entry holds a value of the field's own
kind yields exactly that entry. -/
lemma loadField_eq (d : PersistData) (p q : String × FieldValue)
    (h1 : p.1 = q.1) (h2 : q.2.sameKind p.2 = true)
    (hq : d q.1 = some q.2) : loadField d p = q := by
  unfold loadField PersistData.getTyped
  rw [h1, hq]
  simp [h2]

/-- Loading every field from a document that holds each target value under
the right name and kind reproduces the target field list. -/
lemma from_persist_eq (d : PersistData) :
    ∀ (s₀ s : ParamsFields),
      List.Forall₂ (fun p q => p.1 = q.1 ∧ q.2.sameKind p.2 = true) s₀ s →
      (∀ q ∈ s, d q.1 = some q.2) →
      from_persist_data s₀ d = s := by
  intro s₀ s hall
  induction hall with
  | nil => intro _; rfl
  | @cons p q s₀' s' hpq _ ih =>
    intro hd
    show loadField d p :: from_persist_data s₀' d = q :: s'
    rw [loadField_eq d p q hpq.1 hpq.2 (hd q (List.mem_cons_self q s')),
      ih (fun r hr => hd r (List.mem_cons_of_mem q hr))]

/-- Claim C6: persistence round-trip identity — loading the document
produced by `to_persist_data s` into any struct instance of the same shape
(same field names and kinds) restores a struct equal to `s`.  Field names
of a Rust struct are necessarily distinct. -/
theorem persist_round_trip (s s₀ : ParamsFields)
    (hnd : (s.map Prod.fst).Nodup)
    (halign : List.Forall₂
      (fun p q => p.1 = q.1 ∧ q.2.sameKind p.2 = true) s₀ s) :
    from_persist_data s₀ (to_persist_data s) = s := by
  apply from_persist_eq (to_persist_data s) s₀ s halign
  intro q hq
  exact foldl_insert_of_mem s q.1 q.2 (fun _ => none) hnd hq

/-- Witness for C6: a two-field struct (a numeric and a boolean field)
round-tripped from default values. -/
theorem persist_round_trip_witness :
    from_persist_data
      [("speed", FieldValue.num 0), ("flag", FieldValue.boolean false)]
      (to_persist_data
        [("speed", FieldValue.num (3/4)), ("flag", FieldValue.boolean true)]) =
      [("speed", FieldValue.num (3/4)), ("flag", FieldValue.boolean true)] :=
  persist_round_trip
    [("speed", FieldValue.num (3/4)), ("flag", FieldValue.boolean true)]
    [("speed", FieldValue.num 0), ("flag", FieldValue.boolean false)]
    (by simp)
    (List.Forall₂.cons ⟨rfl, rfl⟩
      (List.Forall₂.cons ⟨rfl, rfl⟩ List.Forall₂.nil))

/-- Unfolding equation: the MIDI callback on a Control Change message. -/
lemma midiCallback_cc (b0 b1 b2 : Nat) (rest : List Nat)
    (raw : ValueStore) :
    midiCallback (b0 :: b1 :: b2 :: rest) raw =
      if b0 = 176 then
        fun k => if k = b1 then some ((b2 : Val) / 127) else raw k
      else raw := rfl

/-- Unfolding equation: merging takes the buffer entry when present. -/
lemma mergeStore_some (buffer values : ValueStore) (k : Nat) (v : Val)
    (h : buffer k = some v) : mergeStore buffer values k = some v := by
  unfold mergeStore
  rw [h]

/-- Unfolding equation: merging keeps the map entry when the buffer has
none. -/
lemma mergeStore_none (buffer values : ValueStore) (k : Nat)
    (h : buffer k = none) : mergeStore buffer values k = values k := by
  unfold mergeStore
  rw [h]

/-- Claim C7 counterexample: a raw Control Change message with data byte
254 (which the callback does not validate) stores 254/127 = 2 for CC 5 —
outside [0,1].  The Value Store neither clamps nor rejects out-of-range
input. -/
theorem ingest_no_clamp_cex :
    midiCallback [176, 5, 254] (fun _ => none) 5 =
      some (((254 : Nat) : Val) / 127) ∧
    ¬ (((254 : Nat) : Val) / 127 ≤ 1) := by
  constructor
  · rfl
  · norm_num

/-- Claim C7 (amended): the ingestion path stores `data_byte / 127`
without any clamping, so the stored value lies in [0,1] exactly when the
data byte is a valid MIDI data byte (≤ 127; bytes above 127 produce values
above 1, see the counterexample).  Under that proviso the [0,1] invariant
holds for the callback's buffer, is preserved when `update_values` drains
the buffer into the Value Store, and `get_value` returns a value in
[0,1]. -/
theorem ingest_valid_byte_in_range (b0 b1 b2 c : Nat) (v : Val)
    (rest : List Nat) (raw : ValueStore) (ctrl : MidiController)
    (hraw : ∀ c' v', raw c' = some v' → 0 ≤ v' ∧ v' ≤ 1)
    (hvals : ∀ c' v', ctrl.values c' = some v' → 0 ≤ v' ∧ v' ≤ 1)
    (hb2 : b2 ≤ 127) :
    (midiCallback (b0 :: b1 :: b2 :: rest) raw c = some v →
      0 ≤ v ∧ v ≤ 1) ∧
    ((ctrl.update_values raw).values c = some v → 0 ≤ v ∧ v ≤ 1) ∧
    (0 ≤ (ctrl.update_values raw).get_value c ∧
      (ctrl.update_values raw).get_value c ≤ 1) := by
  have hdiv : (0 : Val) ≤ (b2 : Val) / 127 ∧ (b2 : Val) / 127 ≤ 1 := by
    constructor
    · positivity
    · rw [div_le_one (by norm_num : (0 : Val) < 127)]
      exact_mod_cast hb2
  refine ⟨?_, ?_, ?_⟩
  · intro h
    rw [midiCallback_cc] at h
    by_cases hb0 : b0 = 176
    · rw [if_pos hb0] at h
      have h' : (if c = b1 then some ((b2 : Val) / 127) else raw c) =
          some v := h
      by_cases hcb : c = b1
      · rw [if_pos hcb] at h'
        have hv := Option.some.inj h'
        rw [← hv]
        exact hdiv
      · rw [if_neg hcb] at h'
        exact hraw c v h'
    · rw [if_neg hb0] at h
      exact hraw c v h
  · intro h
    have h' : mergeStore raw ctrl.values c = some v := h
    cases hr : raw c with
    | some v' =>
      rw [mergeStore_some raw ctrl.values c v' hr] at h'
      have hv := Option.some.inj h'
      rw [← hv]
      exact hraw c v' hr
    | none =>
      rw [mergeStore_none raw ctrl.values c hr] at h'
      exact hvals c v h'
  · have hgv : (ctrl.update_values raw).get_value c =
        (mergeStore raw ctrl.values c).getD 0 := rfl
    rw [hgv]
    cases hr : raw c with
    | some v' =>
      rw [mergeStore_some raw ctrl.values c v' hr]
      exact hraw c v' hr
    | none =>
      rw [mergeStore_none raw ctrl.values c hr]
      cases hv' : ctrl.values c with
      | some w => simpa using hvals c w hv'
      | none => norm_num

/-- Witness for the amended C7: the message `[0xB0, 5, 100]` on an empty
buffer and a fresh controller. -/
theorem ingest_valid_byte_in_range_witness :
    (midiCallback [176, 5, 100] (fun _ => none) 5 =
        some (((100 : Nat) : Val) / 127) →
        0 ≤ ((100 : Nat) : Val) / 127 ∧ ((100 : Nat) : Val) / 127 ≤ 1) ∧
    ((MidiController.new.update_values (fun _ => none)).values 5 =
        some (((100 : Nat) : Val) / 127) →
        0 ≤ ((100 : Nat) : Val) / 127 ∧ ((100 : Nat) : Val) / 127 ≤ 1) ∧
    (0 ≤ (MidiController.new.update_values (fun _ => none)).get_value 5 ∧
      (MidiController.new.update_values (fun _ => none)).get_value 5 ≤ 1) :=
  ingest_valid_byte_in_range 176 5 100 5 (((100 : Nat) : Val) / 127) []
    (fun _ => none)
    MidiController.new
    (fun c' v' h => absurd h (by simp))
    (fun c' v' h => absurd h (by simp [MidiController.new]))
    (by norm_num)

/-- Claim C8 counterexample: registering the inverted-range mapping
`Range{min 5, max 1}` does not fail — `register_mapping` has no error
result, performs no validation, and silently stores the malformed mapping,
retrievable afterwards.  No `InvalidMapping` error is produced at
registration time. -/
theorem register_mapping_accepts_inverted :
    (MidiController.new.register_mapping badRangeMapping).mappings 3 =
      some badRangeMapping ∧
    badRangeMapping.min_value > badRangeMapping.max_value := by
  constructor
  · rfl
  · show (5 : Val) > 1
    norm_num

/-- Unfolding equation: registering a mapping with a live CC stores 0.0
in the value map and the mapping in the mapping table, keyed by that
CC. -/
lemma register_mapping_cc_some (ctrl : MidiController) (m : MidiMapping)
    (c : Nat) (hc : m.cc = some c) :
    ctrl.register_mapping m =
      { ctrl with
        values := fun k => if k = c then some 0 else ctrl.values k,
        mappings := fun k => if k = c then some m else ctrl.mappings k } := by
  unfold MidiController.register_mapping
  rw [hc]

/-- Claim C8 (amended): inverted ranges are rejected at compile time by
the derive attribute parser (`start >= end` produces the parse error
"Range start must be less than end"), while the runtime
`register_mapping` performs no validation: it stores any mapping, and no
`InvalidMapping` error is produced at registration time. -/
theorem inverted_range_rejected_at_parse (start stop : Val)
    (ctrl : MidiController) (m : MidiMapping) (c : Nat)
    (hse : start ≥ stop) (hc : m.cc = some c) :
    rangeAttrCheck start stop =
      .error "Range start must be less than end" ∧
    (ctrl.register_mapping m).mappings c = some m := by
  constructor
  · unfold rangeAttrCheck
    rw [if_pos hse]
  · rw [register_mapping_cc_some ctrl m c hc]
    simp

/-- Witness for the amended C8: the inverted range 5..1 and a fresh
controller. -/
theorem inverted_range_rejected_at_parse_witness :
    rangeAttrCheck 5 1 = .error "Range start must be less than end" ∧
    (MidiController.new.register_mapping
      (MidiMapping.range (some 9) "w" 5 1)).mappings 9 =
      some (MidiMapping.range (some 9) "w" 5 1) :=
  inverted_range_rejected_at_parse 5 1 MidiController.new
    (MidiMapping.range (some 9) "w" 5 1) 9 (by norm_num) rfl

/-- Claim C9: `register_type` is idempotent — registering an
already-present type name leaves the registered-types list (hence
`number_of_registered_types`) unchanged — registering any name preserves
the no-duplicates invariant, and the other state-changing controller
operations do not touch the registered-types list at all. -/
theorem register_type_idempotent_nodup (ctrl : MidiController)
    (t u : String) (m : MidiMapping) (raw : ValueStore)
    (hmem : t ∈ ctrl.registered_types)
    (hnd : ctrl.registered_types.Nodup) :
    (ctrl.register_type t).registered_types = ctrl.registered_types ∧
    (ctrl.register_type t).number_of_registered_types =
      ctrl.number_of_registered_types ∧
    (ctrl.register_type u).registered_types.Nodup ∧
    (ctrl.register_mapping m).registered_types = ctrl.registered_types ∧
    (ctrl.update_values raw).registered_types = ctrl.registered_types := by
  have h1 : (ctrl.register_type t).registered_types =
      ctrl.registered_types := by
    unfold MidiController.register_type
    rw [if_pos hmem]
  refine ⟨h1, ?_, ?_, ?_, rfl⟩
  · unfold MidiController.number_of_registered_types
    rw [h1]
  · unfold MidiController.register_type
    by_cases hu : u ∈ ctrl.registered_types
    · rw [if_pos hu]
      exact hnd
    · rw [if_neg hu]
      show (ctrl.registered_types ++ [u]).Nodup
      simp [List.nodup_append, hnd, hu]
  · cases hc : m.cc with
    | some c => rw [register_mapping_cc_some ctrl m c hc]
    | none =>
      unfold MidiController.register_mapping
      rw [hc]

/-- Witness for C9: a controller with registered type "A", re-registering
"A" and registering "B". -/
theorem register_type_idempotent_nodup_witness :
    (({ MidiController.new with registered_types := ["A"] } :
        MidiController).register_type "A").registered_types =
      ({ MidiController.new with registered_types := ["A"] } :
        MidiController).registered_types ∧
    (({ MidiController.new with registered_types := ["A"] } :
        MidiController).register_type "A").number_of_registered_types =
      ({ MidiController.new with registered_types := ["A"] } :
        MidiController).number_of_registered_types ∧
    (({ MidiController.new with registered_types := ["A"] } :
        MidiController).register_type "B").registered_types.Nodup ∧
    (({ MidiController.new with registered_types := ["A"] } :
        MidiController).register_mapping
        (MidiMapping.button (some 7) "p")).registered_types =
      ({ MidiController.new with registered_types := ["A"] } :
        MidiController).registered_types ∧
    (({ MidiController.new with registered_types := ["A"] } :
        MidiController).update_values (fun _ => none)).registered_types =
      ({ MidiController.new with registered_types := ["A"] } :
        MidiController).registered_types :=
  register_type_idempotent_nodup
    { MidiController.new with registered_types := ["A"] }
    "A" "B" (MidiMapping.button (some 7) "p") (fun _ => none)
    (by simp) (by simp)

end BevyMidiParams
